import Mathlib

/-!
Verification of the Tilt local-command reconciliation core.

Part 1 embeds `ManifestSubscriber.OnChange` from
`internal/engine/fswatch/manifest_subscriber.go`: given the FileWatch
specs computed from the engine state (`SpecsFromState`) and the
existing FileWatch objects, it dispatches create / update / delete
actions.

Part 2 models the Cmd reconciler state machine (spec §4.5): the
implementation is not part of this source tree (only its test suite
is), so the reconciler is modelled from the specification document.
-/

namespace Fswatch

/-- An ignore definition on a FileWatch spec (`filewatches.IgnoreDef`):
a base path plus dockerignore-style patterns. -/
structure IgnoreDef where
  basePath : String
  patterns : List String
deriving DecidableEq

/-- A FileWatch spec (`filewatches.FileWatchSpec`): the watched paths and
the ignore definitions.  `equality.Semantic.DeepEqual` on specs is
structural equality on this representation. -/
structure FileWatchSpec where
  watchedPaths : List String
  ignores : List IgnoreDef
deriving DecidableEq

/-- The actions `ManifestSubscriber.OnChange` can dispatch:
`NewFileWatchCreateAction`, `NewFileWatchUpdateAction`,
`NewFileWatchDeleteAction`. -/
inductive FWAction where
  | create (name : String) (spec : FileWatchSpec)
  | update (name : String) (spec : FileWatchSpec)
  | delete (name : String)
deriving DecidableEq

/-- Lookup of `state.FileWatches[name]`: the existing FileWatch objects,
represented as an association list from (sanitized) name to spec. -/
def lookupFW (fws : List (String × FileWatchSpec)) (n : String) :
    Option FileWatchSpec :=
  (fws.find? (fun p => p.1 = n)).map (fun p => p.2)

/-- The body of the per-spec loop of `OnChange` (lines 40-67 of
`manifest_subscriber.go`): for one computed `(name, spec)` pair, dispatch
an update when an object exists with a semantically different spec, a
create when no object exists, and nothing when the specs are deep-equal. -/
def processSpecActions (fws : List (String × FileWatchSpec))
    (p : String × FileWatchSpec) : List FWAction :=
  match lookupFW fws p.1 with
  | some existing =>
    if existing = p.2 then [] else [FWAction.update p.1 p.2]
  | none => [FWAction.create p.1 p.2]

/-- `ManifestSubscriber.OnChange`: guards on the change summary
(`IsLogOnly`, `Legacy`) and the engine mode (`WatchesFiles`), then the
create/update loop over the computed specs (`specsToProcess`, the output
of `SpecsFromState`, keyed by sanitized target name) followed by the
delete sweep over existing FileWatch names not kept. -/
def onChange (logOnly legacy watchesFiles : Bool)
    (specs : List (String × FileWatchSpec))
    (fws : List (String × FileWatchSpec)) : List FWAction :=
  if logOnly || !legacy then []
  else if !watchesFiles then []
  else
    (specs.map (processSpecActions fws)).flatten ++
      ((fws.filter (fun fw => !(specs.any (fun p => p.1 = fw.1)))).map
        (fun fw => FWAction.delete fw.1))

end Fswatch

namespace Cmd

/-- Modelled from the spec: the readiness probe definition of a command
(spec §4.2); the Probe type of the Cmd controller is not part of this
source tree.  Either an exec probe (a command vector) or an HTTP probe
(a port number). -/
inductive Probe where
  | exec (command : List String)
  | httpGet (port : Nat)
deriving DecidableEq

/-- Modelled from the spec: probe spec validation (spec §4.2): for an
HTTP probe the port must be in the valid TCP port range, for an exec
probe the command must be non-empty.  Returns the descriptive error
message of an invalid spec, `none` when valid or absent. -/
def probeError : Option Probe → Option String
  | none => none
  | some (Probe.exec command) =>
    if command.isEmpty then some "exec command is empty" else none
  | some (Probe.httpGet port) =>
    if 1 ≤ port ∧ port ≤ 65535 then none
    else some ("port number out of range: " ++ toString port)

/-- Modelled from the spec: one input field of a button (spec §4.5 item
5), a tagged variant over text / bool / hidden / choice input kinds,
carrying the spec-side representation options and the status-side value
snapshot. -/
inductive InputKind where
  | text (value : String)
  | bool (trueStr falseStr : Option String) (value : Bool)
  | hidden (value : String)
  | choice (choices : List String) (value : String)
deriving DecidableEq

/-- A named button input: name plus kind/value. -/
structure UIInput where
  name : String
  kind : InputKind
deriving DecidableEq

/-- Modelled from the spec: resolution of one input value (spec §4.5
item 5): text and hidden inputs use their value; bool inputs use the
configurable true/false string representations defaulting to
`"true"`/`"false"`; choice inputs fall back to the first choice on an
empty or invalid value. -/
def inputValue : InputKind → String
  | InputKind.text v => v
  | InputKind.bool ts fs v => if v then ts.getD "true" else fs.getD "false"
  | InputKind.hidden v => v
  | InputKind.choice cs v =>
    if v ≠ "" ∧ v ∈ cs then v else cs.headD ""

/-- An input materialized as a `NAME=value` environment entry. -/
def inputEnv (i : UIInput) : String := i.name ++ "=" ++ inputValue i.kind

/-- Modelled from the spec: a UIButton object as read by the core (spec
§6): name, last-clicked timestamp, and the input value snapshot at click
time. -/
structure Button where
  name : String
  lastClickedAt : Nat
  inputs : List UIInput
deriving DecidableEq

/-- The environment entries materialized from a button's input
snapshot. -/
def buttonEnv (b : Button) : List String := b.inputs.map inputEnv

/-- Modelled from the spec: the `StartOn` trigger set of a command (spec
§3): button names plus the `StartAfter` lower bound on click
timestamps. -/
structure StartOnSpec where
  uiButtons : List String
  startAfter : Nat
deriving DecidableEq

/-- Modelled from the spec: the `RestartOn` trigger set of a command
(spec §3): button names and file-watch names. -/
structure RestartOnSpec where
  uiButtons : List String
  fileWatches : List String
deriving DecidableEq

/-- Modelled from the spec: a command's desired state (spec §3):
argument vector, working directory, environment, trigger sets, optional
readiness probe, optional disable-source reference. -/
structure CmdSpec where
  args : List String
  dir : String
  env : List String
  readinessProbe : Option Probe
  startOn : Option StartOnSpec
  restartOn : Option RestartOnSpec
  disableSource : Option String
deriving DecidableEq

/-- The execution-relevant fields of a spec (spec §4.5 item 2): args,
working dir, env, probe — the fields whose change supersedes a running
instance.  `StartOn`/`RestartOn`/`DisableSource` are excluded. -/
structure ExecIdentity where
  args : List String
  dir : String
  env : List String
  readinessProbe : Option Probe
deriving DecidableEq

/-- Project a spec onto its execution-relevant fields. -/
def execIdentity (s : CmdSpec) : ExecIdentity :=
  ⟨s.args, s.dir, s.env, s.readinessProbe⟩

/-- The human-readable label of a command in log lines ("Starting cmd
sleep 60"). -/
def cmdLabel (s : CmdSpec) : String := String.intercalate " " s.args

/-- Modelled from the spec: a live process instance owned by one command
generation (spec §3): supervisor handle id, the execution-relevant spec
snapshot it was started from, its start time and the full spawned
environment. -/
structure ProcInst where
  id : Nat
  identity : ExecIdentity
  startedAt : Nat
  fullEnv : List String
deriving DecidableEq

/-- Command status: exactly one of Waiting / Running / Terminated (spec
§3, §6).  Running carries `startedAt` and the sticky `ready` flag;
Terminated carries the exit code and a reason. -/
inductive CmdStatus where
  | waiting (reason : String)
  | running (startedAt : Nat) (ready : Bool)
  | terminated (exitCode : Int) (reason : String)
deriving DecidableEq

/-- Resolved disable state of a command (spec §4.4): enabled, disabled,
or pending (source not yet observed, treated as enabled for gating). -/
inductive DisableState where
  | enabled
  | disabled
  | pending
deriving DecidableEq

/-- The per-command reconciler state: spec, status, disable status, the
resolved-trigger watermark (highest trigger timestamp already consumed,
spec §3), the owned process instance (at most one, by construction), and
the next fresh supervisor handle id. -/
structure CmdState where
  spec : CmdSpec
  status : CmdStatus
  disableStatus : DisableState
  watermark : Nat
  proc : Option ProcInst
  nextId : Nat
deriving DecidableEq

/-- Modelled from the spec: the external world read by one
reconciliation pass (spec §6): button objects, file-watch objects (name,
last event time), the resolved disable state (`none` = Unknown), and the
build-in-progress signal. -/
structure World where
  buttons : List Button
  fileWatches : List (String × Nat)
  disable : Option Bool
  buildInFlight : Bool

/-- The supervisor / prober / log actions a reconciliation pass issues
(spec §4.1, §4.2). -/
inductive Action where
  | signal (id : Nat)
  | stopProbe (id : Nat)
  | closeLog (id : Nat)
  | startProcess (id : Nat) (args : List String) (dir : String) (env : List String)
  | startProbe (id : Nat)
  | log (msg : String)
deriving DecidableEq

/-- Full disposal of a process instance (spec §5): process signaled,
probe stopped, log stream closed, plus the cancellation log line. -/
def dispose (label : String) (p : ProcInst) : List Action :=
  [Action.signal p.id, Action.stopProbe p.id, Action.closeLog p.id,
   Action.log ("cmd " ++ label ++ " canceled")]

/-- The waiting reason recorded while a `StartOn` command has not been
triggered. -/
def waitingOnStartOnReason : String := "cmd StartOn has not been triggered"

/-- The last event time of a named file watch, 0 when absent. -/
def fwTime (w : World) (n : String) : Nat :=
  ((w.fileWatches.find? (fun p => p.1 = n)).map (fun p => p.2)).getD 0

/-- The named button object, when it exists. -/
def findButton (w : World) (n : String) : Option Button :=
  w.buttons.find? (fun b => b.name = n)

/-- A trigger event: a timestamp, plus the button that produced it when
it came from a button click (carrying the input snapshot). -/
structure TriggerEvent where
  time : Nat
  button : Option Button
deriving DecidableEq

/-- The trigger events of the `RestartOn` set (spec §4.5 item 4):
last event times of the referenced file watches and last clicks of the
referenced buttons. -/
def restartCandidates (w : World) (s : CmdSpec) : List TriggerEvent :=
  match s.restartOn with
  | none => []
  | some ro =>
    ro.fileWatches.map (fun n => ⟨fwTime w n, none⟩) ++
      ro.uiButtons.filterMap
        (fun n => (findButton w n).map (fun b => ⟨b.lastClickedAt, some b⟩))

/-- The trigger events of the `StartOn` set (spec §4.5 item 3): last
clicks of the referenced buttons, keeping only clicks at or after
`StartAfter`. -/
def startCandidates (w : World) (s : CmdSpec) : List TriggerEvent :=
  match s.startOn with
  | none => []
  | some so =>
    (so.uiButtons.filterMap
        (fun n => (findButton w n).map (fun b => ⟨b.lastClickedAt, some b⟩))).filter
      (fun e => so.startAfter ≤ e.time)

/-- All trigger events that can cause a restart of an instance that
exists or previously existed. -/
def triggerCandidates (w : World) (s : CmdSpec) : List TriggerEvent :=
  restartCandidates w s ++ startCandidates w s

/-- The trigger event with the greatest timestamp (first of the maxima
wins). -/
def bestTrigger : List TriggerEvent → Option TriggerEvent
  | [] => none
  | e :: es =>
    match bestTrigger es with
    | none => some e
    | some b => if e.time < b.time then some b else some e

/-- The newest trigger event strictly newer than the watermark, if any
(spec §3: only such an event can cause a Start/Restart). -/
def newTrigger (w : World) (s : CmdSpec) (wm : Nat) : Option TriggerEvent :=
  bestTrigger ((triggerCandidates w s).filter (fun e => wm < e.time))

/-- Modelled from the spec: executing a Start decision (spec §4.5 items
5-6, §4.2, §7).  Validates the probe spec first: an invalid spec fails
fast as Terminated with exit code 1 and an "Invalid readiness probe: …"
log line, with no probe attempt.  Otherwise spawns a process whose
environment is the spec environment extended with the triggering
button's materialized inputs (exactly that button's snapshot), begins
probing when a probe is configured, and records Running (ready
immediately iff no probe).  `newWm` is the watermark after consuming the
triggering event. -/
def doStart (now : Nat) (s : CmdState) (en : DisableState)
    (trigger : Option Button) (newWm : Nat) : CmdState × List Action :=
  match probeError s.spec.readinessProbe with
  | some msg =>
    ({ s with status := CmdStatus.terminated 1 "invalid probe",
              disableStatus := en, proc := none, watermark := newWm },
     [Action.log ("Invalid readiness probe: " ++ msg)])
  | none =>
    let env := s.spec.env ++ (trigger.map buttonEnv).getD []
    let pid := s.nextId
    ({ s with status := CmdStatus.running now s.spec.readinessProbe.isNone,
              disableStatus := en,
              proc := some ⟨pid, execIdentity s.spec, now, env⟩,
              nextId := pid + 1,
              watermark := newWm },
     [Action.log ("Starting cmd " ++ cmdLabel s.spec),
      Action.startProcess pid s.spec.args s.spec.dir env] ++
       (if s.spec.readinessProbe.isSome then [Action.startProbe pid] else []))

/-- Modelled from the spec: Start gating for a command with no current
instance and no previous run (spec §4.5 item 3).  With `StartOn` unset,
start unconditionally (auto behavior).  With `StartOn` set, start only
on a referenced button click at or after `StartAfter` and strictly newer
than the watermark (seeded at creation time), consuming that click;
otherwise stay Waiting on StartOn. -/
def freshStart (w : World) (now : Nat) (s : CmdState) (en : DisableState) :
    CmdState × List Action :=
  match s.spec.startOn with
  | none => doStart now s en none s.watermark
  | some _ =>
    match bestTrigger ((startCandidates w s.spec).filter
        (fun e => s.watermark < e.time)) with
    | some e => doStart now s en e.button e.time
    | none =>
      ({ s with status := CmdStatus.waiting waitingOnStartOnReason,
                disableStatus := en, proc := none }, [])

/-- The disable status recorded on a pass that is not disabled:
Enabled when the source resolves to false, pending when Unknown
(spec §4.4). -/
def resolvedDisable (w : World) : DisableState :=
  if w.disable = some false then DisableState.enabled else DisableState.pending

/-- Modelled from the spec: one reconciliation pass of the Cmd
reconciler (spec §4.5), evaluated in precedence order:
1. disable check: Disabled forces a Stop (dispose any instance, status
   Terminated, DisableStatus Disabled) and short-circuits;
2. build gating: an in-flight build of the owning resource suppresses
   any supersession of a running instance until it completes;
3. spec-identity check: a change of the execution-relevant fields
   supersedes the running instance (full disposal first) and evaluation
   continues as a fresh start;
4. restart gating: a trigger event strictly newer than the watermark
   supersedes the running instance (or restarts a terminated one),
   advancing the watermark to the consumed timestamp;
5. re-enable: a transition back to Enabled with no process re-evaluates
   Start gating;
6. otherwise the pass is a no-op apart from recording disable status. -/
def reconcile (w : World) (now : Nat) (s : CmdState) : CmdState × List Action :=
  if w.disable = some true then
    match s.proc with
    | some p =>
      ({ s with status := CmdStatus.terminated (-1) "disabled",
                disableStatus := DisableState.disabled, proc := none },
       dispose (cmdLabel s.spec) p)
    | none => ({ s with disableStatus := DisableState.disabled }, [])
  else
    let en := resolvedDisable w
    match s.proc with
    | some p =>
      if w.buildInFlight then ({ s with disableStatus := en }, [])
      else if execIdentity s.spec ≠ p.identity then
        let r := freshStart w now
          { s with proc := none, status := CmdStatus.waiting "superseded" } en
        (r.1, dispose (cmdLabel s.spec) p ++ r.2)
      else
        match newTrigger w s.spec s.watermark with
        | some e =>
          let r := doStart now
            { s with proc := none, status := CmdStatus.waiting "superseded" }
            en e.button e.time
          (r.1, dispose (cmdLabel s.spec) p ++ r.2)
        | none => ({ s with disableStatus := en }, [])
    | none =>
      if s.disableStatus = DisableState.disabled then freshStart w now s en
      else
        match s.status with
        | CmdStatus.waiting _ => freshStart w now s en
        | CmdStatus.terminated _ _ =>
          match newTrigger w s.spec s.watermark with
          | some e => doStart now s en e.button e.time
          | none => ({ s with disableStatus := en }, [])
        | CmdStatus.running _ _ => ({ s with disableStatus := en }, [])

/-- Modelled from the spec: the supervisor's asynchronous process-exit
notification (spec §4.5 item 7): Running → Terminated with the reported
exit code, an "exited with code" log line, probe and log stream
released.  Independent of the periodic reconciliation pass. -/
def handleExit (exitCode : Int) (s : CmdState) : CmdState × List Action :=
  match s.proc with
  | some p =>
    ({ s with status := CmdStatus.terminated exitCode "exited", proc := none },
     [Action.stopProbe p.id, Action.closeLog p.id,
      Action.log ("cmd " ++ cmdLabel s.spec ++ " exited with code " ++
        toString exitCode)])
  | none => (s, [])

/-- Modelled from the spec: the state of a freshly created command (spec
§4.5 item 3): Waiting, no process, and the watermark seeded at creation
time precisely to prevent an initial spurious start. -/
def newCmd (spec : CmdSpec) (creationTime : Nat) : CmdState :=
  { spec := spec, status := CmdStatus.waiting "created",
    disableStatus := DisableState.pending,
    watermark := creationTime, proc := none, nextId := 1 }

/-- Whether an action creates a new process instance. -/
def isStart : Action → Bool
  | Action.startProcess _ _ _ _ => true
  | _ => false

/-- Whether an action begins probing. -/
def isProbeStart : Action → Bool
  | Action.startProbe _ => true
  | _ => false

/-- The number of process-creation actions in a pass. -/
def countStarts (l : List Action) : Nat := (l.filter isStart).length

/-- Whether a pass creates a new process instance. -/
def hasStart (l : List Action) : Bool := l.any isStart

/-- The prefix of a pass's actions before the first process creation. -/
def preStart (l : List Action) : List Action :=
  l.takeWhile (fun a => !isStart a)

end Cmd

namespace Cmd

lemma bestTrigger_none_iff {l : List TriggerEvent} :
    bestTrigger l = none ↔ l = [] := by
  cases l with
  | nil => simp [bestTrigger]
  | cons a as =>
    simp only [bestTrigger]
    cases bestTrigger as with
    | none => simp
    | some b =>
      by_cases hc : a.time < b.time <;> simp [hc]

lemma bestTrigger_mem : ∀ {l : List TriggerEvent} {e : TriggerEvent},
    bestTrigger l = some e → e ∈ l := by
  intro l
  induction l with
  | nil => intro e h; exact absurd h (by simp [bestTrigger])
  | cons a as ih =>
    intro e h
    rw [bestTrigger] at h
    cases hb : bestTrigger as with
    | none =>
      rw [hb] at h
      cases h
      exact List.mem_cons_self _ _
    | some b =>
      rw [hb] at h
      dsimp only at h
      by_cases hc : a.time < b.time
      · rw [if_pos hc] at h
        cases h
        exact List.mem_cons_of_mem _ (ih hb)
      · rw [if_neg hc] at h
        cases h
        exact List.mem_cons_self _ _

lemma bestTrigger_max : ∀ {l : List TriggerEvent} {e : TriggerEvent},
    bestTrigger l = some e → ∀ x ∈ l, x.time ≤ e.time := by
  intro l
  induction l with
  | nil => intro e _ x hx; exact absurd hx (List.not_mem_nil _)
  | cons a as ih =>
    intro e h x hx
    rw [bestTrigger] at h
    cases hb : bestTrigger as with
    | none =>
      rw [hb] at h
      cases h
      rcases List.mem_cons.mp hx with rfl | hx'
      · exact le_refl _
      · rw [bestTrigger_none_iff.mp hb] at hx'
        exact absurd hx' (List.not_mem_nil _)
    | some b =>
      rw [hb] at h
      dsimp only at h
      by_cases hc : a.time < b.time
      · rw [if_pos hc] at h
        cases h
        rcases List.mem_cons.mp hx with rfl | hx'
        · exact le_of_lt hc
        · exact ih hb x hx'
      · rw [if_neg hc] at h
        cases h
        rcases List.mem_cons.mp hx with rfl | hx'
        · exact le_refl _
        · exact le_trans (ih hb x hx') (le_of_not_lt hc)

lemma newTrigger_none_iff {w : World} {s : CmdSpec} {wm : Nat} :
    newTrigger w s wm = none ↔
      ∀ x ∈ triggerCandidates w s, x.time ≤ wm := by
  rw [newTrigger, bestTrigger_none_iff, List.filter_eq_nil_iff]
  constructor
  · intro h x hx
    exact Nat.not_lt.mp (by simpa using h x hx)
  · intro h x hx
    simpa using Nat.not_lt.mpr (h x hx)

lemma newTrigger_some_mem {w : World} {s : CmdSpec} {wm : Nat}
    {e : TriggerEvent} (h : newTrigger w s wm = some e) :
    e ∈ triggerCandidates w s ∧ wm < e.time := by
  have hm := bestTrigger_mem h
  rcases List.mem_filter.mp hm with ⟨h1, h2⟩
  exact ⟨h1, by simpa using h2⟩

lemma newTrigger_some_max {w : World} {s : CmdSpec} {wm : Nat}
    {e : TriggerEvent} (h : newTrigger w s wm = some e) :
    ∀ x ∈ triggerCandidates w s, x.time ≤ e.time := by
  intro x hx
  by_cases hxw : wm < x.time
  · exact bestTrigger_max h x (List.mem_filter.mpr ⟨hx, by simpa using hxw⟩)
  · exact le_trans (Nat.le_of_not_lt hxw) (le_of_lt (newTrigger_some_mem h).2)

/-- Consuming the newest trigger leaves no strictly newer trigger:
re-observing the same events is a no-op. -/
lemma newTrigger_after_consume {w : World} {s : CmdSpec} {wm : Nat}
    {e : TriggerEvent} (h : newTrigger w s wm = some e) :
    newTrigger w s e.time = none :=
  newTrigger_none_iff.mpr (newTrigger_some_max h)

end Cmd

namespace Fswatch

lemma create_mem_processSpecActions {fws : List (String × FileWatchSpec)}
    {p : String × FileWatchSpec} {n : String} {sp : FileWatchSpec} :
    FWAction.create n sp ∈ processSpecActions fws p ↔
      p.1 = n ∧ p.2 = sp ∧ lookupFW fws n = none := by
  unfold processSpecActions
  cases h : lookupFW fws p.1 with
  | some ex =>
    dsimp only
    by_cases hex : ex = p.2
    · subst hex
      rw [if_pos rfl]
      constructor
      · intro hmem
        exact absurd hmem (List.not_mem_nil _)
      · rintro ⟨rfl, rfl, hnone⟩
        rw [h] at hnone
        exact Option.noConfusion hnone
    · rw [if_neg hex]
      constructor
      · intro hmem
        exact FWAction.noConfusion (List.mem_singleton.mp hmem)
      · rintro ⟨rfl, rfl, hnone⟩
        rw [h] at hnone
        exact Option.noConfusion hnone
  | none =>
    dsimp only
    constructor
    · intro hmem
      rcases FWAction.create.inj (List.mem_singleton.mp hmem) with ⟨rfl, rfl⟩
      exact ⟨rfl, rfl, h⟩
    · rintro ⟨rfl, rfl, -⟩
      exact List.mem_singleton.mpr rfl

lemma update_mem_processSpecActions {fws : List (String × FileWatchSpec)}
    {p : String × FileWatchSpec} {n : String} {sp : FileWatchSpec} :
    FWAction.update n sp ∈ processSpecActions fws p ↔
      p.1 = n ∧ p.2 = sp ∧ ∃ old, lookupFW fws n = some old ∧ old ≠ sp := by
  unfold processSpecActions
  cases h : lookupFW fws p.1 with
  | some ex =>
    dsimp only
    by_cases hex : ex = p.2
    · subst hex
      rw [if_pos rfl]
      constructor
      · intro hmem
        exact absurd hmem (List.not_mem_nil _)
      · rintro ⟨rfl, rfl, old, hold, hne⟩
        rw [h] at hold
        exact absurd (Option.some.inj hold).symm hne
    · rw [if_neg hex]
      constructor
      · intro hmem
        rcases FWAction.update.inj (List.mem_singleton.mp hmem) with ⟨rfl, rfl⟩
        exact ⟨rfl, rfl, ex, h, hex⟩
      · rintro ⟨rfl, rfl, -⟩
        exact List.mem_singleton.mpr rfl
  | none =>
    dsimp only
    constructor
    · intro hmem
      exact FWAction.noConfusion (List.mem_singleton.mp hmem)
    · rintro ⟨rfl, rfl, old, hold, -⟩
      rw [h] at hold
      exact Option.noConfusion hold

lemma delete_not_mem_processSpecActions {fws : List (String × FileWatchSpec)}
    {p : String × FileWatchSpec} {n : String} :
    FWAction.delete n ∉ processSpecActions fws p := by
  unfold processSpecActions
  cases lookupFW fws p.1 with
  | some ex => by_cases hex : ex = p.2 <;> simp [hex]
  | none => simp

/-- C10: `ManifestSubscriber.OnChange` dispatches a create exactly for a
computed spec with no existing FileWatch object of that name, an update
exactly for a computed spec whose existing object's spec is not
semantically deep-equal to it, and a delete exactly for an existing
FileWatch name not derivable from the state; a log-only or non-legacy
change summary, or an engine mode that does not watch files, dispatches
nothing; and on a state whose FileWatch objects already match the
computed specs it dispatches no actions at all (idempotence). -/
theorem onChange_dispatch_exact (specs fws : List (String × FileWatchSpec)) :
    (∀ lo lg wf, (lo = true ∨ lg = false ∨ wf = false) →
       onChange lo lg wf specs fws = []) ∧
    (∀ n sp, FWAction.create n sp ∈ onChange false true true specs fws ↔
       ((n, sp) ∈ specs ∧ lookupFW fws n = none)) ∧
    (∀ n sp, FWAction.update n sp ∈ onChange false true true specs fws ↔
       ((n, sp) ∈ specs ∧ ∃ old, lookupFW fws n = some old ∧ old ≠ sp)) ∧
    (∀ n, FWAction.delete n ∈ onChange false true true specs fws ↔
       ((∃ q ∈ fws, q.1 = n) ∧ ¬ ∃ p ∈ specs, p.1 = n)) ∧
    ((∀ p ∈ specs, lookupFW fws p.1 = some p.2) →
      onChange false true true specs fws =
        (fws.filter (fun fw => !(specs.any (fun p => p.1 = fw.1)))).map
          (fun fw => FWAction.delete fw.1)) ∧
    ((∀ p ∈ specs, lookupFW fws p.1 = some p.2) →
     (∀ q ∈ fws, ∃ p ∈ specs, p.1 = q.1) →
     onChange false true true specs fws = []) := by
  have hbody : onChange false true true specs fws =
      (specs.map (processSpecActions fws)).flatten ++
        ((fws.filter (fun fw => !(specs.any (fun p => p.1 = fw.1)))).map
          (fun fw => FWAction.delete fw.1)) := by
    simp [onChange]
  refine ⟨?_, ?_, ?_, ?_, ?_, ?_⟩
  · rintro lo lg wf (rfl | rfl | rfl) <;> simp [onChange]
  · intro n sp
    rw [hbody]
    simp only [List.mem_append, List.mem_flatten, List.mem_map]
    constructor
    · rintro (⟨_, ⟨p, hp, rfl⟩, hmem⟩ | ⟨q, hq, h⟩)
      · rcases create_mem_processSpecActions.mp hmem with ⟨h1, h2, h3⟩
        refine ⟨?_, h3⟩
        have : p = (n, sp) := Prod.ext h1 h2
        rwa [this] at hp
      · exact absurd h (by simp)
    · rintro ⟨hmem, hlook⟩
      exact Or.inl ⟨_, ⟨(n, sp), hmem, rfl⟩,
        create_mem_processSpecActions.mpr ⟨rfl, rfl, hlook⟩⟩
  · intro n sp
    rw [hbody]
    simp only [List.mem_append, List.mem_flatten, List.mem_map]
    constructor
    · rintro (⟨_, ⟨p, hp, rfl⟩, hmem⟩ | ⟨q, hq, h⟩)
      · rcases update_mem_processSpecActions.mp hmem with ⟨h1, h2, h3⟩
        refine ⟨?_, h3⟩
        have : p = (n, sp) := Prod.ext h1 h2
        rwa [this] at hp
      · exact absurd h (by simp)
    · rintro ⟨hmem, hold⟩
      exact Or.inl ⟨_, ⟨(n, sp), hmem, rfl⟩,
        update_mem_processSpecActions.mpr ⟨rfl, rfl, hold⟩⟩
  · intro n
    rw [hbody]
    simp only [List.mem_append, List.mem_flatten, List.mem_map]
    constructor
    · rintro (⟨_, ⟨p, hp, rfl⟩, hmem⟩ | ⟨q, hq, h⟩)
      · exact absurd hmem delete_not_mem_processSpecActions
      · rcases List.mem_filter.mp hq with ⟨hqf, hqkeep⟩
        rcases FWAction.delete.inj h with rfl
        refine ⟨⟨q, hqf, rfl⟩, ?_⟩
        rintro ⟨p, hp, hpn⟩
        have : specs.any (fun p => p.1 = q.1) = true :=
          List.any_eq_true.mpr ⟨p, hp, by simp [hpn]⟩
        simp [this] at hqkeep
    · rintro ⟨⟨q, hq, rfl⟩, hno⟩
      refine Or.inr ⟨q, List.mem_filter.mpr ⟨hq, ?_⟩, rfl⟩
      simp only [Bool.not_eq_true', List.any_eq_false, decide_eq_true_eq]
      intro p hp hpq
      exact hno ⟨p, hp, by simpa using hpq⟩
  · intro hmatch
    rw [hbody]
    have : (specs.map (processSpecActions fws)).flatten = [] := by
      rw [List.flatten_eq_nil_iff]
      intro l hl
      rcases List.mem_map.mp hl with ⟨p, hp, rfl⟩
      unfold processSpecActions
      rw [hmatch p hp]
      simp
    rw [this, List.nil_append]
  · intro hmatch hkeep
    rw [hbody]
    have h1 : (specs.map (processSpecActions fws)).flatten = [] := by
      rw [List.flatten_eq_nil_iff]
      intro l hl
      rcases List.mem_map.mp hl with ⟨p, hp, rfl⟩
      unfold processSpecActions
      rw [hmatch p hp]
      simp
    have h2 : fws.filter (fun fw => !(specs.any (fun p => p.1 = fw.1))) = [] := by
      rw [List.filter_eq_nil_iff]
      intro q hq
      rcases hkeep q hq with ⟨p, hp, hpq⟩
      simp only [Bool.not_eq_true', Bool.not_eq_false]
      exact List.any_eq_true.mpr ⟨p, hp, by simp [hpq]⟩
    rw [h1, h2]
    rfl

/-- Witness for C10 at a concrete state: a matching object yields no
actions; the idempotence hypotheses are discharged at a one-spec,
one-object state where the object matches. -/
theorem onChange_dispatch_exact_witness :
    onChange false true true
      [("a", ⟨["p"], []⟩)] [("a", ⟨["p"], []⟩)] = [] := by
  refine (onChange_dispatch_exact
      [("a", ⟨["p"], []⟩)] [("a", ⟨["p"], []⟩)]).2.2.2.2.2 ?_ ?_
  · decide
  · decide

end Fswatch

namespace Cmd

lemma dispose_no_start {label : String} {p : ProcInst} :
    ∀ a ∈ dispose label p, isStart a = false := by
  intro a ha
  rcases ha with _ | ⟨_, _ | ⟨_, _ | ⟨_, _ | ⟨_, h⟩⟩⟩⟩ <;>
    first
      | rfl
      | exact absurd (by assumption : a ∈ ([] : List Action))
          (List.not_mem_nil _)

lemma preStart_append {l1 l2 : List Action}
    (h : ∀ a ∈ l1, isStart a = false) :
    preStart (l1 ++ l2) = l1 ++ preStart l2 := by
  induction l1 with
  | nil => rfl
  | cons a as ih =>
    have ha : isStart a = false := h a (List.mem_cons_self _ _)
    rw [List.cons_append, preStart, List.takeWhile_cons, ha]
    simp only [Bool.not_false, if_pos]
    rw [List.cons_append]
    congr 1
    exact ih (fun x hx => h x (List.mem_cons_of_mem _ hx))

lemma countStarts_append {l1 l2 : List Action} :
    countStarts (l1 ++ l2) = countStarts l1 + countStarts l2 := by
  simp [countStarts, List.filter_append]

lemma countStarts_of_no_start {l : List Action}
    (h : ∀ a ∈ l, isStart a = false) : countStarts l = 0 := by
  simp only [countStarts, List.length_eq_zero]
  rw [List.filter_eq_nil_iff]
  intro a ha
  simp [h a ha]

lemma doStart_state (now : Nat) (s : CmdState) (en : DisableState)
    (tr : Option Button) (wm : Nat) :
    (doStart now s en tr wm).1.spec = s.spec ∧
    (doStart now s en tr wm).1.watermark = wm ∧
    (doStart now s en tr wm).1.disableStatus = en := by
  unfold doStart
  cases probeError s.spec.readinessProbe <;> simp

lemma doStart_probeOk {now : Nat} {s : CmdState} {en : DisableState}
    {tr : Option Button} {wm : Nat}
    (h : probeError s.spec.readinessProbe = none) :
    (doStart now s en tr wm).1.proc =
      some ⟨s.nextId, execIdentity s.spec, now,
        s.spec.env ++ (tr.map buttonEnv).getD []⟩ ∧
    (doStart now s en tr wm).1.status =
      CmdStatus.running now s.spec.readinessProbe.isNone ∧
    (doStart now s en tr wm).2 =
      [Action.log ("Starting cmd " ++ cmdLabel s.spec),
       Action.startProcess s.nextId s.spec.args s.spec.dir
         (s.spec.env ++ (tr.map buttonEnv).getD [])] ++
        (if s.spec.readinessProbe.isSome then [Action.startProbe s.nextId]
         else []) := by
  unfold doStart
  rw [h]
  exact ⟨rfl, rfl, rfl⟩

lemma hasStart_doStart_probeOk {now : Nat} {s : CmdState}
    {en : DisableState} {tr : Option Button} {wm : Nat}
    (h : probeError s.spec.readinessProbe = none) :
    hasStart (doStart now s en tr wm).2 = true := by
  rw [(doStart_probeOk h).2.2]
  cases s.spec.readinessProbe.isSome <;> simp [hasStart, isStart]

lemma countStarts_doStart (now : Nat) (s : CmdState) (en : DisableState)
    (tr : Option Button) (wm : Nat) :
    countStarts (doStart now s en tr wm).2 ≤ 1 := by
  unfold doStart
  cases probeError s.spec.readinessProbe with
  | some msg => simp [countStarts, List.filter, isStart]
  | none =>
    cases s.spec.readinessProbe.isSome <;>
      simp [countStarts, List.filter, isStart]

lemma countStarts_freshStart (w : World) (now : Nat) (s : CmdState)
    (en : DisableState) :
    countStarts (freshStart w now s en).2 ≤ 1 := by
  unfold freshStart
  cases s.spec.startOn with
  | none => exact countStarts_doStart _ _ _ _ _
  | some so =>
    cases bestTrigger ((startCandidates w s.spec).filter
        (fun e => s.watermark < e.time)) with
    | none => simp [countStarts, List.filter]
    | some e => exact countStarts_doStart _ _ _ _ _

end Cmd

namespace Cmd

lemma reconcile_disabled_proc {w : World} {now : Nat} {s : CmdState}
    {p : ProcInst} (hd : w.disable = some true) (hp : s.proc = some p) :
    reconcile w now s =
      ({ s with status := CmdStatus.terminated (-1) "disabled",
                disableStatus := DisableState.disabled, proc := none },
       dispose (cmdLabel s.spec) p) := by
  unfold reconcile
  rw [if_pos hd, hp]

lemma reconcile_disabled_noproc {w : World} {now : Nat} {s : CmdState}
    (hd : w.disable = some true) (hp : s.proc = none) :
    reconcile w now s = ({ s with disableStatus := DisableState.disabled }, []) := by
  unfold reconcile
  rw [if_pos hd, hp]

lemma reconcile_build_hold {w : World} {now : Nat} {s : CmdState}
    {p : ProcInst} (hd : ¬ w.disable = some true) (hp : s.proc = some p)
    (hb : w.buildInFlight = true) :
    reconcile w now s = ({ s with disableStatus := resolvedDisable w }, []) := by
  unfold reconcile
  rw [if_neg hd, hp]
  dsimp only
  rw [hb]
  rfl

lemma reconcile_supersede_spec {w : World} {now : Nat} {s : CmdState}
    {p : ProcInst} (hd : ¬ w.disable = some true) (hp : s.proc = some p)
    (hb : w.buildInFlight = false)
    (hid : execIdentity s.spec ≠ p.identity) :
    reconcile w now s =
      ((freshStart w now
          { s with proc := none, status := CmdStatus.waiting "superseded" }
          (resolvedDisable w)).1,
       dispose (cmdLabel s.spec) p ++
         (freshStart w now
            { s with proc := none, status := CmdStatus.waiting "superseded" }
            (resolvedDisable w)).2) := by
  unfold reconcile
  rw [if_neg hd, hp]
  dsimp only
  rw [hb]
  rw [if_neg (by simp : ¬ (false = true))]
  rw [if_pos hid]

lemma reconcile_restart_trigger {w : World} {now : Nat} {s : CmdState}
    {p : ProcInst} {e : TriggerEvent}
    (hd : ¬ w.disable = some true) (hp : s.proc = some p)
    (hb : w.buildInFlight = false)
    (hid : execIdentity s.spec = p.identity)
    (htr : newTrigger w s.spec s.watermark = some e) :
    reconcile w now s =
      ((doStart now
          { s with proc := none, status := CmdStatus.waiting "superseded" }
          (resolvedDisable w) e.button e.time).1,
       dispose (cmdLabel s.spec) p ++
         (doStart now
            { s with proc := none, status := CmdStatus.waiting "superseded" }
            (resolvedDisable w) e.button e.time).2) := by
  unfold reconcile
  rw [if_neg hd, hp]
  dsimp only
  rw [hb]
  rw [if_neg (by simp : ¬ (false = true))]
  rw [if_neg (by simpa using hid)]
  rw [htr]

lemma reconcile_running_stable {w : World} {now : Nat} {s : CmdState}
    {p : ProcInst}
    (hd : ¬ w.disable = some true) (hp : s.proc = some p)
    (hb : w.buildInFlight = false)
    (hid : execIdentity s.spec = p.identity)
    (htr : newTrigger w s.spec s.watermark = none) :
    reconcile w now s = ({ s with disableStatus := resolvedDisable w }, []) := by
  unfold reconcile
  rw [if_neg hd, hp]
  dsimp only
  rw [hb]
  rw [if_neg (by simp : ¬ (false = true))]
  rw [if_neg (by simpa using hid)]
  rw [htr]

lemma reconcile_reenable {w : World} {now : Nat} {s : CmdState}
    (hd : ¬ w.disable = some true) (hp : s.proc = none)
    (hdis : s.disableStatus = DisableState.disabled) :
    reconcile w now s = freshStart w now s (resolvedDisable w) := by
  unfold reconcile
  rw [if_neg hd, hp]
  dsimp only
  rw [if_pos hdis]

lemma reconcile_waiting {w : World} {now : Nat} {s : CmdState} {r : String}
    (hd : ¬ w.disable = some true) (hp : s.proc = none)
    (hdis : ¬ s.disableStatus = DisableState.disabled)
    (hst : s.status = CmdStatus.waiting r) :
    reconcile w now s = freshStart w now s (resolvedDisable w) := by
  unfold reconcile
  rw [if_neg hd, hp]
  dsimp only
  rw [if_neg hdis, hst]

lemma reconcile_terminated_trigger {w : World} {now : Nat} {s : CmdState}
    {c : Int} {r : String} {e : TriggerEvent}
    (hd : ¬ w.disable = some true) (hp : s.proc = none)
    (hdis : ¬ s.disableStatus = DisableState.disabled)
    (hst : s.status = CmdStatus.terminated c r)
    (htr : newTrigger w s.spec s.watermark = some e) :
    reconcile w now s = doStart now s (resolvedDisable w) e.button e.time := by
  unfold reconcile
  rw [if_neg hd, hp]
  dsimp only
  rw [if_neg hdis, hst]
  dsimp only
  rw [htr]

lemma reconcile_terminated_stable {w : World} {now : Nat} {s : CmdState}
    {c : Int} {r : String}
    (hd : ¬ w.disable = some true) (hp : s.proc = none)
    (hdis : ¬ s.disableStatus = DisableState.disabled)
    (hst : s.status = CmdStatus.terminated c r)
    (htr : newTrigger w s.spec s.watermark = none) :
    reconcile w now s = ({ s with disableStatus := resolvedDisable w }, []) := by
  unfold reconcile
  rw [if_neg hd, hp]
  dsimp only
  rw [if_neg hdis, hst]
  dsimp only
  rw [htr]

end Cmd

namespace Cmd

lemma hasStart_eq_false {l : List Action}
    (h : ∀ a ∈ l, isStart a = false) : hasStart l = false := by
  rw [hasStart, List.any_eq_false]
  intro a ha
  simp [h a ha]

lemma dispose_mem_preStart {label : String} {p : ProcInst}
    {rest : List Action} :
    Action.signal p.id ∈ preStart (dispose label p ++ rest) ∧
    Action.stopProbe p.id ∈ preStart (dispose label p ++ rest) ∧
    Action.closeLog p.id ∈ preStart (dispose label p ++ rest) := by
  rw [preStart_append dispose_no_start]
  refine ⟨?_, ?_, ?_⟩ <;> exact List.mem_append_left _ (by simp [dispose])

/-- C1: at most one live process instance per command.  A reconciliation
pass creates at most one new process, and whenever a pass that observed
a live instance creates a new one, the prior instance is fully disposed
first: the signal, probe-stop and log-close actions for the prior
instance all occur strictly before the process-creation action. -/
theorem cmd_at_most_one_instance_dispose_first
    (w : World) (now : Nat) (s : CmdState) (p : ProcInst)
    (hp : s.proc = some p) :
    countStarts (reconcile w now s).2 ≤ 1 ∧
    (hasStart (reconcile w now s).2 = true →
      Action.signal p.id ∈ preStart (reconcile w now s).2 ∧
      Action.stopProbe p.id ∈ preStart (reconcile w now s).2 ∧
      Action.closeLog p.id ∈ preStart (reconcile w now s).2) := by
  by_cases hd : w.disable = some true
  · rw [reconcile_disabled_proc hd hp]
    refine ⟨?_, ?_⟩
    · rw [countStarts_of_no_start dispose_no_start]
      exact Nat.zero_le 1
    · intro hstart
      rw [hasStart_eq_false dispose_no_start] at hstart
      exact absurd hstart (by simp)
  · by_cases hb : w.buildInFlight = true
    · rw [reconcile_build_hold hd hp hb]
      exact ⟨by simp [countStarts], by intro h; simp [hasStart] at h⟩
    · have hb' : w.buildInFlight = false := by simpa using hb
      by_cases hid : execIdentity s.spec = p.identity
      · cases htr : newTrigger w s.spec s.watermark with
        | some e =>
          rw [reconcile_restart_trigger hd hp hb' hid htr]
          refine ⟨?_, fun _ => dispose_mem_preStart⟩
          rw [countStarts_append, countStarts_of_no_start dispose_no_start]
          simpa using countStarts_doStart _ _ _ _ _
        | none =>
          rw [reconcile_running_stable hd hp hb' hid htr]
          exact ⟨by simp [countStarts], by intro h; simp [hasStart] at h⟩
      · rw [reconcile_supersede_spec hd hp hb' hid]
        refine ⟨?_, fun _ => dispose_mem_preStart⟩
        rw [countStarts_append, countStarts_of_no_start dispose_no_start]
        simpa using countStarts_freshStart _ _ _ _

/-- Witness for C1: a running command whose spec args changed (from
["true"] to ["false"]) is superseded with full disposal before the new
start. -/
theorem cmd_at_most_one_instance_dispose_first_witness :
    countStarts (reconcile ⟨[], [], some false, false⟩ 7
      ⟨⟨["false"], ".", [], none, none, none, none⟩,
       CmdStatus.running 3 true, DisableState.enabled, 0,
       some ⟨4, ⟨["true"], ".", [], none⟩, 3, []⟩, 5⟩).2 ≤ 1 ∧
    (hasStart (reconcile ⟨[], [], some false, false⟩ 7
      ⟨⟨["false"], ".", [], none, none, none, none⟩,
       CmdStatus.running 3 true, DisableState.enabled, 0,
       some ⟨4, ⟨["true"], ".", [], none⟩, 3, []⟩, 5⟩).2 = true →
      Action.signal 4 ∈ preStart (reconcile ⟨[], [], some false, false⟩ 7
        ⟨⟨["false"], ".", [], none, none, none, none⟩,
         CmdStatus.running 3 true, DisableState.enabled, 0,
         some ⟨4, ⟨["true"], ".", [], none⟩, 3, []⟩, 5⟩).2 ∧
      Action.stopProbe 4 ∈ preStart (reconcile ⟨[], [], some false, false⟩ 7
        ⟨⟨["false"], ".", [], none, none, none, none⟩,
         CmdStatus.running 3 true, DisableState.enabled, 0,
         some ⟨4, ⟨["true"], ".", [], none⟩, 3, []⟩, 5⟩).2 ∧
      Action.closeLog 4 ∈ preStart (reconcile ⟨[], [], some false, false⟩ 7
        ⟨⟨["false"], ".", [], none, none, none, none⟩,
         CmdStatus.running 3 true, DisableState.enabled, 0,
         some ⟨4, ⟨["true"], ".", [], none⟩, 3, []⟩, 5⟩).2) :=
  cmd_at_most_one_instance_dispose_first _ 7 _ ⟨4, ⟨["true"], ".", [], none⟩, 3, []⟩ rfl

end Cmd

namespace Cmd

lemma hasStart_append {l1 l2 : List Action} :
    hasStart (l1 ++ l2) = (hasStart l1 || hasStart l2) := by
  simp [hasStart]

/-- C2: watermark gating of Start/Restart.  For a running, enabled,
non-building command with an unchanged execution identity: a pass
creates a new instance iff some referenced trigger event is strictly
newer than the consumed watermark; consuming the newest such event
advances the watermark to its timestamp; with no strictly newer event
the pass is a no-op; and immediately after a restart, re-delivering the
same trigger events causes no second start (idempotence under duplicate
delivery). -/
theorem cmd_trigger_watermark_idempotence
    (w : World) (now now2 : Nat) (s : CmdState) (p : ProcInst)
    (hp : s.proc = some p)
    (hd : ¬ w.disable = some true)
    (hb : w.buildInFlight = false)
    (hid : execIdentity s.spec = p.identity)
    (hprobe : probeError s.spec.readinessProbe = none) :
    (hasStart (reconcile w now s).2 = true ↔
      ∃ e ∈ triggerCandidates w s.spec, s.watermark < e.time) ∧
    (∀ e, newTrigger w s.spec s.watermark = some e →
      (reconcile w now s).1.watermark = e.time ∧
      hasStart (reconcile w now s).2 = true) ∧
    (newTrigger w s.spec s.watermark = none →
      reconcile w now s = ({ s with disableStatus := resolvedDisable w }, [])) ∧
    (∀ e, newTrigger w s.spec s.watermark = some e →
      hasStart (reconcile w now2 (reconcile w now s).1).2 = false) := by
  refine ⟨?_, ?_, ?_, ?_⟩
  · constructor
    · intro hstart
      cases htr : newTrigger w s.spec s.watermark with
      | none =>
        rw [reconcile_running_stable hd hp hb hid htr] at hstart
        simp [hasStart] at hstart
      | some e =>
        exact ⟨e, (newTrigger_some_mem htr).1, (newTrigger_some_mem htr).2⟩
    · rintro ⟨e, he, hlt⟩
      cases htr : newTrigger w s.spec s.watermark with
      | none =>
        exact absurd (newTrigger_none_iff.mp htr e he) (Nat.not_le.mpr hlt)
      | some e' =>
        have hprobe' : probeError
            ({ s with proc := none,
                      status := CmdStatus.waiting "superseded" } :
              CmdState).spec.readinessProbe = none := hprobe
        rw [reconcile_restart_trigger hd hp hb hid htr, hasStart_append,
          hasStart_doStart_probeOk hprobe']
        simp
  · intro e htr
    have hprobe' : probeError
        ({ s with proc := none,
                  status := CmdStatus.waiting "superseded" } :
          CmdState).spec.readinessProbe = none := hprobe
    rw [reconcile_restart_trigger hd hp hb hid htr]
    exact ⟨(doStart_state _ _ _ _ _).2.1,
      by rw [hasStart_append, hasStart_doStart_probeOk hprobe']; simp⟩
  · intro htr
    exact reconcile_running_stable hd hp hb hid htr
  · intro e htr
    rw [reconcile_restart_trigger hd hp hb hid htr]
    have hproc : (doStart now
        { s with proc := none, status := CmdStatus.waiting "superseded" }
        (resolvedDisable w) e.button e.time).1.proc =
        some ⟨s.nextId, execIdentity s.spec, now,
          s.spec.env ++ (e.button.map buttonEnv).getD []⟩ :=
      (doStart_probeOk hprobe).1
    have hspec : (doStart now
        { s with proc := none, status := CmdStatus.waiting "superseded" }
        (resolvedDisable w) e.button e.time).1.spec = s.spec :=
      (doStart_state _ _ _ _ _).1
    have hwm : (doStart now
        { s with proc := none, status := CmdStatus.waiting "superseded" }
        (resolvedDisable w) e.button e.time).1.watermark = e.time :=
      (doStart_state _ _ _ _ _).2.1
    rw [reconcile_running_stable hd hproc hb
      (by rw [hspec])
      (by rw [hspec, hwm]; exact newTrigger_after_consume htr)]
    simp [hasStart]

def wC2 : World := ⟨[], [("fw-1", 10)], some false, false⟩

def sC2 : CmdState :=
  ⟨⟨["true"], ".", [], none, none, some ⟨[], ["fw-1"]⟩, none⟩,
   CmdStatus.running 3 true, DisableState.enabled, 0,
   some ⟨1, ⟨["true"], ".", [], none⟩, 3, []⟩, 2⟩

/-- Witness for C2: a running command with a `RestartOn` file watch
whose last event (t=10) is newer than the watermark (0) restarts,
advances the watermark to 10, and a second pass over the same trigger
events causes no second start. -/
theorem cmd_trigger_watermark_idempotence_witness :
    (hasStart (reconcile wC2 20 sC2).2 = true ↔
      ∃ e ∈ triggerCandidates wC2 sC2.spec, sC2.watermark < e.time) ∧
    (∀ e, newTrigger wC2 sC2.spec sC2.watermark = some e →
      (reconcile wC2 20 sC2).1.watermark = e.time ∧
      hasStart (reconcile wC2 20 sC2).2 = true) ∧
    (newTrigger wC2 sC2.spec sC2.watermark = none →
      reconcile wC2 20 sC2 =
        ({ sC2 with disableStatus := resolvedDisable wC2 }, [])) ∧
    (∀ e, newTrigger wC2 sC2.spec sC2.watermark = some e →
      hasStart (reconcile wC2 21 (reconcile wC2 20 sC2).1).2 = false) :=
  cmd_trigger_watermark_idempotence wC2 20 21 sC2
    ⟨1, ⟨["true"], ".", [], none⟩, 3, []⟩
    rfl (by decide) rfl rfl rfl

end Cmd

namespace Cmd

lemma freshStart_auto {w : World} {now : Nat} {s : CmdState}
    {en : DisableState} (hso : s.spec.startOn = none) :
    freshStart w now s en = doStart now s en none s.watermark := by
  unfold freshStart
  rw [hso]

lemma freshStart_waiting {w : World} {now : Nat} {s : CmdState}
    {en : DisableState} {so : StartOnSpec}
    (hso : s.spec.startOn = some so)
    (hbt : bestTrigger ((startCandidates w s.spec).filter
      (fun e => s.watermark < e.time)) = none) :
    freshStart w now s en =
      ({ s with status := CmdStatus.waiting waitingOnStartOnReason,
                disableStatus := en, proc := none }, []) := by
  unfold freshStart
  rw [hso]
  dsimp only
  rw [hbt]

lemma freshStart_trigger {w : World} {now : Nat} {s : CmdState}
    {en : DisableState} {so : StartOnSpec} {e : TriggerEvent}
    (hso : s.spec.startOn = some so)
    (hbt : bestTrigger ((startCandidates w s.spec).filter
      (fun e => s.watermark < e.time)) = some e) :
    freshStart w now s en = doStart now s en e.button e.time := by
  unfold freshStart
  rw [hso]
  dsimp only
  rw [hbt]

lemma resolvedDisable_enabled {w : World} (hd : w.disable = some false) :
    resolvedDisable w = DisableState.enabled := by
  unfold resolvedDisable
  rw [hd]
  simp

/-- C3: disable precedence.  Disabling a command with a running instance
— regardless of concurrent trigger activity in the world — stops the
process (a signal is issued), records Terminated and
DisableStatus=Disabled; a later transition back to Enabled, with start
conditions otherwise satisfied (`StartOn` unset, valid probe), starts a
new process: Running and DisableStatus=Enabled. -/
theorem cmd_disable_precedence_reenable
    (w w2 : World) (now now2 : Nat) (s : CmdState) (p : ProcInst)
    (hp : s.proc = some p)
    (hd : w.disable = some true)
    (hd2 : w2.disable = some false)
    (hso : s.spec.startOn = none)
    (hprobe : probeError s.spec.readinessProbe = none) :
    (reconcile w now s).1.status = CmdStatus.terminated (-1) "disabled" ∧
    (reconcile w now s).1.disableStatus = DisableState.disabled ∧
    (reconcile w now s).1.proc = none ∧
    Action.signal p.id ∈ (reconcile w now s).2 ∧
    (reconcile w2 now2 (reconcile w now s).1).1.status =
      CmdStatus.running now2 s.spec.readinessProbe.isNone ∧
    (reconcile w2 now2 (reconcile w now s).1).1.disableStatus =
      DisableState.enabled := by
  rw [reconcile_disabled_proc hd hp]
  refine ⟨rfl, rfl, rfl, by simp [dispose], ?_, ?_⟩ <;>
  · have hd2' : ¬ w2.disable = some true := by rw [hd2]; simp
    have hren : reconcile w2 now2
        ({ s with status := CmdStatus.terminated (-1) "disabled",
                  disableStatus := DisableState.disabled,
                  proc := none } : CmdState) =
        freshStart w2 now2
          { s with status := CmdStatus.terminated (-1) "disabled",
                   disableStatus := DisableState.disabled, proc := none }
          (resolvedDisable w2) :=
      reconcile_reenable hd2' rfl rfl
    have hfs : freshStart w2 now2
        ({ s with status := CmdStatus.terminated (-1) "disabled",
                  disableStatus := DisableState.disabled,
                  proc := none } : CmdState)
        (resolvedDisable w2) =
        doStart now2
          { s with status := CmdStatus.terminated (-1) "disabled",
                   disableStatus := DisableState.disabled, proc := none }
          (resolvedDisable w2) none s.watermark :=
      freshStart_auto hso
    have hprobe1 : probeError
        ({ s with status := CmdStatus.terminated (-1) "disabled",
                  disableStatus := DisableState.disabled,
                  proc := none } : CmdState).spec.readinessProbe = none :=
      hprobe
    rw [hren, hfs]
    first
      | exact (doStart_probeOk hprobe1).2.1
      | rw [(doStart_state _ _ _ _ _).2.2, resolvedDisable_enabled hd2]

def wC3a : World := ⟨[⟨"b-1", 50, []⟩], [("fw-1", 60)], some true, false⟩

def wC3b : World := ⟨[], [], some false, false⟩

def sC3 : CmdState :=
  ⟨⟨["sh", "-c", "sleep 10000"], ".", [], none, none, none, some "disable-cmd-1"⟩,
   CmdStatus.running 3 true, DisableState.enabled, 0,
   some ⟨1, ⟨["sh", "-c", "sleep 10000"], ".", [], none⟩, 3, []⟩, 2⟩

/-- Witness for C3: a running command is disabled (amid unrelated
trigger activity), becoming Terminated/Disabled, then re-enabled,
becoming Running/Enabled. -/
theorem cmd_disable_precedence_reenable_witness :
    (reconcile wC3a 20 sC3).1.status = CmdStatus.terminated (-1) "disabled" ∧
    (reconcile wC3a 20 sC3).1.disableStatus = DisableState.disabled ∧
    (reconcile wC3a 20 sC3).1.proc = none ∧
    Action.signal 1 ∈ (reconcile wC3a 20 sC3).2 ∧
    (reconcile wC3b 30 (reconcile wC3a 20 sC3).1).1.status =
      CmdStatus.running 30 sC3.spec.readinessProbe.isNone ∧
    (reconcile wC3b 30 (reconcile wC3a 20 sC3).1).1.disableStatus =
      DisableState.enabled :=
  cmd_disable_precedence_reenable wC3a wC3b 20 30 sC3
    ⟨1, ⟨["sh", "-c", "sleep 10000"], ".", [], none⟩, 3, []⟩
    rfl rfl rfl rfl rfl

end Cmd

namespace Cmd

/-- C4: a freshly created command with `StartOn` configured never starts
merely upon creation.  With a single referenced button "b-1" whose last
click is at time `t`, and the watermark seeded at creation time `tc`: a
start happens iff `t` is at or after `StartAfter` and strictly newer
than `tc`; otherwise the command stays Waiting on StartOn with no
process. -/
theorem cmd_startOn_no_spurious_start
    (w : World) (s : CmdState) (spec : CmdSpec) (so : StartOnSpec)
    (tc t now : Nat) (ins : List UIInput) (fws : List (String × Nat))
    (hw : w = ⟨[⟨"b-1", t, ins⟩], fws, some false, false⟩)
    (hs : s = newCmd spec tc)
    (hso : spec.startOn = some so)
    (hbuttons : so.uiButtons = ["b-1"])
    (hprobe : probeError spec.readinessProbe = none) :
    (hasStart (reconcile w now s).2 = true ↔
      (so.startAfter ≤ t ∧ tc < t)) ∧
    (¬ (so.startAfter ≤ t ∧ tc < t) →
      (reconcile w now s).1.status = CmdStatus.waiting waitingOnStartOnReason ∧
      (reconcile w now s).1.proc = none) ∧
    ((so.startAfter ≤ t ∧ tc < t) →
      (reconcile w now s).1.status =
        CmdStatus.running now spec.readinessProbe.isNone) := by
  subst hw hs
  have hd : ¬ (⟨[⟨"b-1", t, ins⟩], fws, some false, false⟩ : World).disable
      = some true := by simp
  have hrw : reconcile ⟨[⟨"b-1", t, ins⟩], fws, some false, false⟩ now
      (newCmd spec tc) =
      freshStart ⟨[⟨"b-1", t, ins⟩], fws, some false, false⟩ now
        (newCmd spec tc)
        (resolvedDisable ⟨[⟨"b-1", t, ins⟩], fws, some false, false⟩) :=
    reconcile_waiting hd rfl (by simp [newCmd]) rfl
  have hso1 : (newCmd spec tc).spec.startOn = some so := hso
  have hprobe1 : probeError (newCmd spec tc).spec.readinessProbe = none :=
    hprobe
  by_cases hstartable : so.startAfter ≤ t ∧ tc < t
  · have hbt : bestTrigger ((startCandidates
        ⟨[⟨"b-1", t, ins⟩], fws, some false, false⟩
        (newCmd spec tc).spec).filter
          (fun e => (newCmd spec tc).watermark < e.time)) =
        some ⟨t, some ⟨"b-1", t, ins⟩⟩ := by
      unfold startCandidates
      rw [hso1]
      dsimp only
      rw [hbuttons]
      simp [findButton, List.find?, List.filterMap, hstartable.1,
        hstartable.2, newCmd, bestTrigger]
    rw [hrw, freshStart_trigger hso1 hbt]
    refine ⟨?_, ?_, ?_⟩
    · rw [hasStart_doStart_probeOk hprobe1]
      simp [hstartable]
    · intro hn
      exact absurd hstartable hn
    · intro _
      exact (doStart_probeOk hprobe1).2.1
  · have hbt : bestTrigger ((startCandidates
        ⟨[⟨"b-1", t, ins⟩], fws, some false, false⟩
        (newCmd spec tc).spec).filter
          (fun e => (newCmd spec tc).watermark < e.time)) = none := by
      unfold startCandidates
      rw [hso1]
      dsimp only
      rw [hbuttons]
      rcases Decidable.not_and_iff_or_not.mp hstartable with hna | hnc
      · simp [findButton, List.find?, List.filterMap, hna, newCmd,
          bestTrigger]
      · simp [findButton, List.find?, List.filterMap, hnc, newCmd,
          bestTrigger]
    rw [hrw, freshStart_waiting hso1 hbt]
    refine ⟨?_, ?_, ?_⟩
    · simp [hasStart, hstartable]
    · intro _
      exact ⟨rfl, rfl⟩
    · intro hyes
      exact absurd hyes hstartable

def specC4 : CmdSpec :=
  ⟨["myserver"], ".", [], none, some ⟨["b-1"], 5⟩, none, none⟩

/-- Witness for C4: a command created at time 5 with
`StartOn = {buttons: [b-1], startAfter: 5}` and a click at time 5 (not
newer than the creation-seeded watermark) stays Waiting on StartOn. -/
theorem cmd_startOn_no_spurious_start_witness :
    (hasStart (reconcile ⟨[⟨"b-1", 5, []⟩], [], some false, false⟩ 10
        (newCmd specC4 5)).2 = true ↔ (5 ≤ 5 ∧ 5 < 5)) ∧
    (¬ ((5:Nat) ≤ 5 ∧ (5:Nat) < 5) →
      (reconcile ⟨[⟨"b-1", 5, []⟩], [], some false, false⟩ 10
          (newCmd specC4 5)).1.status =
        CmdStatus.waiting waitingOnStartOnReason ∧
      (reconcile ⟨[⟨"b-1", 5, []⟩], [], some false, false⟩ 10
          (newCmd specC4 5)).1.proc = none) ∧
    (((5:Nat) ≤ 5 ∧ (5:Nat) < 5) →
      (reconcile ⟨[⟨"b-1", 5, []⟩], [], some false, false⟩ 10
          (newCmd specC4 5)).1.status =
        CmdStatus.running 10 specC4.readinessProbe.isNone) :=
  cmd_startOn_no_spurious_start _ _ specC4 ⟨["b-1"], 5⟩ 5 5 10 [] []
    rfl rfl rfl rfl rfl

end Cmd

namespace Cmd

/-- C5: declarative-only spec edits do not supersede a running instance.
If the edited spec `spec2` agrees with the old spec on all
execution-relevant fields (args, dir, env, probe) — i.e. only
`StartOn`/`RestartOn`/`DisableSource` changed — and the edit brings no
trigger event newer than the watermark, then the pass keeps the very
same process instance, the Running status (including `startedAt`) is
unchanged, and no supervisor action is issued. -/
theorem cmd_declarative_edit_no_restart
    (w : World) (now st : Nat) (rdy : Bool) (s : CmdState) (p : ProcInst)
    (spec2 : CmdSpec)
    (hp : s.proc = some p)
    (hst : s.status = CmdStatus.running st rdy)
    (hd : ¬ w.disable = some true)
    (hexec : execIdentity spec2 = execIdentity s.spec)
    (hid : execIdentity s.spec = p.identity)
    (htrig : newTrigger w spec2 s.watermark = none) :
    (reconcile w now { s with spec := spec2 }).1.proc = some p ∧
    (reconcile w now { s with spec := spec2 }).1.status =
      CmdStatus.running st rdy ∧
    (reconcile w now { s with spec := spec2 }).2 = [] := by
  have hp2 : ({ s with spec := spec2 } : CmdState).proc = some p := hp
  have heq : reconcile w now { s with spec := spec2 } =
      ({ { s with spec := spec2 } with
          disableStatus := resolvedDisable w }, []) := by
    by_cases hb : w.buildInFlight = true
    · exact reconcile_build_hold hd hp2 hb
    · have hb' : w.buildInFlight = false := by simpa using hb
      have hid2 : execIdentity ({ s with spec := spec2 } : CmdState).spec
          = p.identity := hexec.trans hid
      have htr2 : newTrigger w ({ s with spec := spec2 } : CmdState).spec
          ({ s with spec := spec2 } : CmdState).watermark = none := htrig
      exact reconcile_running_stable hd hp2 hb' hid2 htr2
  rw [heq]
  exact ⟨hp, hst, rfl⟩

def specC5a : CmdSpec :=
  ⟨["sleep", "60"], ".", [], none, some ⟨["b-1"], 5⟩, none, none⟩

def specC5b : CmdSpec :=
  ⟨["sleep", "60"], ".", [], none, some ⟨["new-button"], 5⟩,
   some ⟨[], ["new-filewatch"]⟩, none⟩

def sC5 : CmdState :=
  ⟨specC5a, CmdStatus.running 6 true, DisableState.enabled, 6,
   some ⟨1, ⟨["sleep", "60"], ".", [], none⟩, 6, []⟩, 2⟩

def wC5 : World :=
  ⟨[⟨"new-button", 0, []⟩], [("new-filewatch", 0)], some false, false⟩

/-- Witness for C5: updating only `StartOn`/`RestartOn` references on a
running `sleep 60` command leaves the same process with the same
`startedAt` and issues no actions. -/
theorem cmd_declarative_edit_no_restart_witness :
    (reconcile wC5 9 { sC5 with spec := specC5b }).1.proc =
      some ⟨1, ⟨["sleep", "60"], ".", [], none⟩, 6, []⟩ ∧
    (reconcile wC5 9 { sC5 with spec := specC5b }).1.status =
      CmdStatus.running 6 true ∧
    (reconcile wC5 9 { sC5 with spec := specC5b }).2 = [] :=
  cmd_declarative_edit_no_restart wC5 9 6 true sC5
    ⟨1, ⟨["sleep", "60"], ".", [], none⟩, 6, []⟩ specC5b
    rfl rfl (by decide) rfl rfl (by decide)

end Cmd

namespace Cmd

/-- C6: trigger isolation.  When a waiting command whose `StartOn`
references buttons "b-1" and "b-2" is started by a qualifying click of
"b-2" (while "b-1"'s click does not qualify), the spawned environment is
exactly the spec environment extended with "b-2"'s own materialized
input snapshot; and the whole reconciliation result is identical for any
two worlds differing only in "b-1"'s input values. -/
theorem cmd_button_input_isolation
    (w : World) (s : CmdState) (ta t1 t2 now : Nat)
    (ins1 ins2 : List UIInput) (fws : List (String × Nat)) (r : String)
    (hw : w = ⟨[⟨"b-1", t1, ins1⟩, ⟨"b-2", t2, ins2⟩], fws,
      some false, false⟩)
    (hp : s.proc = none)
    (hst : s.status = CmdStatus.waiting r)
    (hdis : ¬ s.disableStatus = DisableState.disabled)
    (hso : s.spec.startOn = some ⟨["b-1", "b-2"], ta⟩)
    (h2q : ta ≤ t2 ∧ s.watermark < t2)
    (h1nq : ¬ (ta ≤ t1 ∧ s.watermark < t1))
    (hprobe : probeError s.spec.readinessProbe = none) :
    (reconcile w now s).1.proc =
      some ⟨s.nextId, execIdentity s.spec, now,
        s.spec.env ++ buttonEnv ⟨"b-2", t2, ins2⟩⟩ ∧
    ∀ ins1' : List UIInput,
      reconcile ⟨[⟨"b-1", t1, ins1'⟩, ⟨"b-2", t2, ins2⟩], fws,
        some false, false⟩ now s = reconcile w now s := by
  subst hw
  have key : ∀ insx : List UIInput,
      reconcile ⟨[⟨"b-1", t1, insx⟩, ⟨"b-2", t2, ins2⟩], fws,
        some false, false⟩ now s =
      doStart now s DisableState.enabled (some ⟨"b-2", t2, ins2⟩) t2 := by
    intro insx
    have hd : ¬ (⟨[⟨"b-1", t1, insx⟩, ⟨"b-2", t2, ins2⟩], fws,
        some false, false⟩ : World).disable = some true := by simp
    have hbt : bestTrigger ((startCandidates
        ⟨[⟨"b-1", t1, insx⟩, ⟨"b-2", t2, ins2⟩], fws, some false, false⟩
        s.spec).filter (fun e => s.watermark < e.time)) =
        some ⟨t2, some ⟨"b-2", t2, ins2⟩⟩ := by
      unfold startCandidates
      rw [hso]
      dsimp only
      rcases Decidable.not_and_iff_or_not.mp h1nq with hna | hnc
      · simp [findButton, List.find?, List.filterMap, hna, h2q.1, h2q.2,
          bestTrigger]
      · by_cases ha1 : ta ≤ t1
        · simp [findButton, List.find?, List.filterMap, ha1, hnc, h2q.1,
            h2q.2, bestTrigger]
        · simp [findButton, List.find?, List.filterMap, ha1, h2q.1,
            h2q.2, bestTrigger]
    rw [reconcile_waiting hd hp hdis hst, freshStart_trigger hso hbt,
      resolvedDisable_enabled rfl]
  constructor
  · rw [key ins1]
    exact (doStart_probeOk hprobe).1
  · intro ins1'
    rw [key ins1', key ins1]

def sC6 : CmdState :=
  ⟨⟨["myserver"], ".", [], none, some ⟨["b-1", "b-2"], 5⟩, none, none⟩,
   CmdStatus.waiting waitingOnStartOnReason, DisableState.enabled, 5,
   none, 1⟩

def insC6 : List UIInput :=
  [⟨"foo", InputKind.text "bar"⟩,
   ⟨"baz", InputKind.text "wait what comes next"⟩]

/-- Witness for C6: "b-2" (no inputs, clicked at 6) starts the command;
"b-1"'s inputs (clicked at 3, not qualifying) are not materialized, and
replacing "b-1"'s inputs entirely leaves the reconciliation result
unchanged. -/
theorem cmd_button_input_isolation_witness :
    (reconcile ⟨[⟨"b-1", 3, insC6⟩, ⟨"b-2", 6, []⟩], [],
        some false, false⟩ 10 sC6).1.proc =
      some ⟨sC6.nextId, execIdentity sC6.spec,
        10, sC6.spec.env ++ buttonEnv ⟨"b-2", 6, []⟩⟩ ∧
    reconcile ⟨[⟨"b-1", 3, []⟩, ⟨"b-2", 6, []⟩], [],
        some false, false⟩ 10 sC6 =
      reconcile ⟨[⟨"b-1", 3, insC6⟩, ⟨"b-2", 6, []⟩], [],
        some false, false⟩ 10 sC6 :=
  ⟨(cmd_button_input_isolation _ sC6 5 3 6 10 insC6 [] []
      waitingOnStartOnReason rfl rfl rfl (by decide) rfl (by decide)
      (by decide) rfl).1,
   (cmd_button_input_isolation _ sC6 5 3 6 10 insC6 [] []
      waitingOnStartOnReason rfl rfl rfl (by decide) rfl (by decide)
      (by decide) rfl).2 []⟩

end Cmd

namespace Cmd

lemma doStart_probeBad {now : Nat} {s : CmdState} {en : DisableState}
    {tr : Option Button} {wm : Nat} {msg : String}
    (h : probeError s.spec.readinessProbe = some msg) :
    doStart now s en tr wm =
      ({ s with status := CmdStatus.terminated 1 "invalid probe",
                disableStatus := en, proc := none, watermark := wm },
       [Action.log ("Invalid readiness probe: " ++ msg)]) := by
  unfold doStart
  rw [h]

/-- C7: an invalid readiness probe fails fast.  For an HTTP probe whose
port is outside the valid TCP range, a Start decision yields Terminated
with exit code 1, the log line "Invalid readiness probe: port number out
of range: {port}", no live process, and zero probe attempts (no
probe-start action is ever issued, and no process is spawned). -/
theorem cmd_invalid_probe_fails_fast
    (w : World) (s : CmdState) (now port : Nat) (r : String)
    (hp : s.proc = none)
    (hst : s.status = CmdStatus.waiting r)
    (hdis : ¬ s.disableStatus = DisableState.disabled)
    (hd : ¬ w.disable = some true)
    (hso : s.spec.startOn = none)
    (hprobe : s.spec.readinessProbe = some (Probe.httpGet port))
    (hport : ¬ (1 ≤ port ∧ port ≤ 65535)) :
    (reconcile w now s).1.status = CmdStatus.terminated 1 "invalid probe" ∧
    (reconcile w now s).1.proc = none ∧
    Action.log ("Invalid readiness probe: " ++
      ("port number out of range: " ++ toString port)) ∈
      (reconcile w now s).2 ∧
    ∀ a ∈ (reconcile w now s).2,
      isProbeStart a = false ∧ isStart a = false := by
  have herr : probeError s.spec.readinessProbe =
      some ("port number out of range: " ++ toString port) := by
    rw [hprobe]
    simp [probeError, hport]
  rw [reconcile_waiting hd hp hdis hst, freshStart_auto hso,
    doStart_probeBad herr]
  refine ⟨rfl, rfl, List.mem_singleton.mpr rfl, ?_⟩
  intro a ha
  rw [List.mem_singleton.mp ha]
  exact ⟨rfl, rfl⟩

def sC7 : CmdState :=
  ⟨⟨["sleep", "60"], "testdir", [], some (Probe.httpGet 70000),
    none, none, none⟩,
   CmdStatus.waiting "created", DisableState.pending, 0, none, 1⟩

/-- Witness for C7: port 70000 yields Terminated with exit code 1, the
exact log line "Invalid readiness probe: port number out of range:
70000", and no probe or process actions. -/
theorem cmd_invalid_probe_fails_fast_witness :
    (reconcile ⟨[], [], none, false⟩ 4 sC7).1.status =
      CmdStatus.terminated 1 "invalid probe" ∧
    (reconcile ⟨[], [], none, false⟩ 4 sC7).1.proc = none ∧
    Action.log "Invalid readiness probe: port number out of range: 70000" ∈
      (reconcile ⟨[], [], none, false⟩ 4 sC7).2 ∧
    ∀ a ∈ (reconcile ⟨[], [], none, false⟩ 4 sC7).2,
      isProbeStart a = false ∧ isStart a = false := by
  have h := cmd_invalid_probe_fails_fast ⟨[], [], none, false⟩ sC7 4 70000
    "created" rfl rfl (by decide) (by decide) rfl rfl (by decide)
  refine ⟨h.1, h.2.1, ?_, h.2.2.2⟩
  have hs : "Invalid readiness probe: " ++
      ("port number out of range: " ++ toString (70000 : Nat)) =
      "Invalid readiness probe: port number out of range: 70000" := by
    decide
  rw [← hs]
  exact h.2.2.1

end Cmd

namespace Cmd

/-- C8: an in-flight build suppresses restart.  While the owning
resource is building, a pass over a running command keeps the same
process and issues no actions, whatever restart condition is pending
(a trigger newer than the watermark or an execution-relevant spec
change).  Once the build completes (same world, build flag cleared),
the pending restart proceeds: with an unchanged execution identity a
newer trigger starts a new instance, signaling the old one first and
advancing the watermark to the consumed timestamp; with a changed
execution identity (auto command) the supersession starts a new
instance, signaling the old one first. -/
theorem cmd_build_suppresses_restart
    (w : World) (now now2 : Nat) (s : CmdState) (p : ProcInst)
    (hp : s.proc = some p)
    (hd : ¬ w.disable = some true)
    (hbuild : w.buildInFlight = true)
    (hprobe : probeError s.spec.readinessProbe = none) :
    (reconcile w now s).1.proc = some p ∧
    (reconcile w now s).2 = [] ∧
    (∀ e, execIdentity s.spec = p.identity →
      newTrigger w s.spec s.watermark = some e →
      hasStart (reconcile ⟨w.buttons, w.fileWatches, w.disable, false⟩
        now2 (reconcile w now s).1).2 = true ∧
      Action.signal p.id ∈ preStart
        (reconcile ⟨w.buttons, w.fileWatches, w.disable, false⟩
          now2 (reconcile w now s).1).2 ∧
      (reconcile ⟨w.buttons, w.fileWatches, w.disable, false⟩
        now2 (reconcile w now s).1).1.watermark = e.time) ∧
    (execIdentity s.spec ≠ p.identity →
      s.spec.startOn = none →
      hasStart (reconcile ⟨w.buttons, w.fileWatches, w.disable, false⟩
        now2 (reconcile w now s).1).2 = true ∧
      Action.signal p.id ∈ preStart
        (reconcile ⟨w.buttons, w.fileWatches, w.disable, false⟩
          now2 (reconcile w now s).1).2) := by
  rw [reconcile_build_hold hd hp hbuild]
  have hd' : ¬ (⟨w.buttons, w.fileWatches, w.disable, false⟩ :
      World).disable = some true := hd
  have hp' : ({ s with disableStatus := resolvedDisable w } :
      CmdState).proc = some p := hp
  have hb' : (⟨w.buttons, w.fileWatches, w.disable, false⟩ :
      World).buildInFlight = false := rfl
  have hprobe' : probeError
      ({ { s with disableStatus := resolvedDisable w } with
          proc := none,
          status := CmdStatus.waiting "superseded" } :
        CmdState).spec.readinessProbe = none := hprobe
  refine ⟨hp, rfl, ?_, ?_⟩
  · intro e hid htr
    have hid' : execIdentity ({ s with
        disableStatus := resolvedDisable w } : CmdState).spec =
        p.identity := hid
    have htr' : newTrigger ⟨w.buttons, w.fileWatches, w.disable, false⟩
        ({ s with disableStatus := resolvedDisable w } : CmdState).spec
        ({ s with disableStatus := resolvedDisable w } :
          CmdState).watermark = some e := htr
    rw [reconcile_restart_trigger hd' hp' hb' hid' htr']
    refine ⟨?_, dispose_mem_preStart.1, ?_⟩
    · rw [hasStart_append, hasStart_doStart_probeOk hprobe']
      simp
    · exact (doStart_state _ _ _ _ _).2.1
  · intro hneq hso
    have hid' : execIdentity ({ s with
        disableStatus := resolvedDisable w } : CmdState).spec ≠
        p.identity := hneq
    have hso' : ({ { s with disableStatus := resolvedDisable w } with
        proc := none,
        status := CmdStatus.waiting "superseded" } :
          CmdState).spec.startOn = none := hso
    rw [reconcile_supersede_spec hd' hp' hb' hid', freshStart_auto hso']
    refine ⟨?_, dispose_mem_preStart.1⟩
    rw [hasStart_append, hasStart_doStart_probeOk hprobe']
    simp

def wC8 : World := ⟨[], [("fw-1", 10)], some false, true⟩

def sC8 : CmdState :=
  ⟨⟨["true"], ".", [], none, none, some ⟨[], ["fw-1"]⟩, none⟩,
   CmdStatus.running 3 true, DisableState.enabled, 0,
   some ⟨1, ⟨["true"], ".", [], none⟩, 3, []⟩, 2⟩

def sC8b : CmdState :=
  ⟨⟨["false"], ".", [], none, none, none, none⟩,
   CmdStatus.running 3 true, DisableState.enabled, 0,
   some ⟨7, ⟨["true"], ".", [], none⟩, 3, []⟩, 8⟩

/-- Witness for C8, both restart conditions.  Trigger case: with a build
in flight, a file-watch event at t=10 does not supersede the running
process; clearing the build flag lets the restart proceed, signaling the
old process first and advancing the watermark to 10.  Spec-change case:
a running `true` process whose spec now says `false` is likewise kept
while the build is in flight, and superseded (signal first, new start)
once it completes. -/
theorem cmd_build_suppresses_restart_witness :
    ((reconcile wC8 20 sC8).1.proc =
      some ⟨1, ⟨["true"], ".", [], none⟩, 3, []⟩ ∧
     (reconcile wC8 20 sC8).2 = [] ∧
     hasStart (reconcile ⟨wC8.buttons, wC8.fileWatches, wC8.disable,
       false⟩ 21 (reconcile wC8 20 sC8).1).2 = true ∧
     Action.signal 1 ∈ preStart
       (reconcile ⟨wC8.buttons, wC8.fileWatches, wC8.disable, false⟩
         21 (reconcile wC8 20 sC8).1).2 ∧
     (reconcile ⟨wC8.buttons, wC8.fileWatches, wC8.disable, false⟩
       21 (reconcile wC8 20 sC8).1).1.watermark =
       (⟨10, none⟩ : TriggerEvent).time) ∧
    ((reconcile wC8 20 sC8b).1.proc =
      some ⟨7, ⟨["true"], ".", [], none⟩, 3, []⟩ ∧
     (reconcile wC8 20 sC8b).2 = [] ∧
     hasStart (reconcile ⟨wC8.buttons, wC8.fileWatches, wC8.disable,
       false⟩ 21 (reconcile wC8 20 sC8b).1).2 = true ∧
     Action.signal 7 ∈ preStart
       (reconcile ⟨wC8.buttons, wC8.fileWatches, wC8.disable, false⟩
         21 (reconcile wC8 20 sC8b).1).2) := by
  have hA := cmd_build_suppresses_restart wC8 20 21 sC8
    ⟨1, ⟨["true"], ".", [], none⟩, 3, []⟩ rfl (by decide) rfl rfl
  have hB := cmd_build_suppresses_restart wC8 20 21 sC8b
    ⟨7, ⟨["true"], ".", [], none⟩, 3, []⟩ rfl (by decide) rfl rfl
  refine ⟨⟨hA.1, hA.2.1, ?_, ?_, ?_⟩, ⟨hB.1, hB.2.1, ?_, ?_⟩⟩
  · exact (hA.2.2.1 ⟨10, none⟩ rfl (by decide)).1
  · exact (hA.2.2.1 ⟨10, none⟩ rfl (by decide)).2.1
  · exact (hA.2.2.1 ⟨10, none⟩ rfl (by decide)).2.2
  · exact (hB.2.2.2 (by decide) rfl).1
  · exact (hB.2.2.2 (by decide) rfl).2

end Cmd

namespace Cmd

lemma handleExit_proc {n : Int} {s : CmdState} {p : ProcInst}
    (hp : s.proc = some p) :
    handleExit n s =
      ({ s with status := CmdStatus.terminated n "exited", proc := none },
       [Action.stopProbe p.id, Action.closeLog p.id,
        Action.log ("cmd " ++ cmdLabel s.spec ++ " exited with code " ++
          toString n)]) := by
  unfold handleExit
  rw [hp]

/-- C9: a natural process exit with code `n` transitions Running →
Terminated carrying `n`, emits the "cmd … exited with code n" log line,
releases the process, and is not retried: creating no new process, and a
subsequent reconciliation pass with no trigger newer than the watermark
leaves the status Terminated with the same code, issuing no actions. -/
theorem cmd_exit_terminates_no_retry
    (w : World) (now st : Nat) (rdy : Bool) (s : CmdState) (p : ProcInst)
    (n : Int)
    (hp : s.proc = some p)
    (hst : s.status = CmdStatus.running st rdy) :
    (handleExit n s).1.status = CmdStatus.terminated n "exited" ∧
    (handleExit n s).1.proc = none ∧
    Action.log ("cmd " ++ cmdLabel s.spec ++ " exited with code " ++
      toString n) ∈ (handleExit n s).2 ∧
    (∀ a ∈ (handleExit n s).2, isStart a = false) ∧
    (¬ w.disable = some true →
      ¬ s.disableStatus = DisableState.disabled →
      newTrigger w s.spec s.watermark = none →
      (reconcile w now (handleExit n s).1).1.status =
        CmdStatus.terminated n "exited" ∧
      (reconcile w now (handleExit n s).1).2 = []) := by
  rw [handleExit_proc hp]
  refine ⟨rfl, rfl, by simp, ?_, ?_⟩
  · intro a ha
    rcases ha with _ | ⟨_, _ | ⟨_, _ | ⟨_, h⟩⟩⟩
    · rfl
    · rfl
    · rfl
    · exact absurd (by assumption : a ∈ ([] : List Action))
        (List.not_mem_nil _)
  · intro hd hdis htr
    have hp1 : ({ s with status := CmdStatus.terminated n "exited",
                            proc := none } : CmdState).proc = none := rfl
    have hdis1 : ¬ ({ s with status := CmdStatus.terminated n "exited",
                             proc := none } : CmdState).disableStatus =
        DisableState.disabled := hdis
    have hst1 : ({ s with status := CmdStatus.terminated n "exited",
                          proc := none } : CmdState).status =
        CmdStatus.terminated n "exited" := rfl
    have htr1 : newTrigger w
        ({ s with status := CmdStatus.terminated n "exited",
                  proc := none } : CmdState).spec
        ({ s with status := CmdStatus.terminated n "exited",
                  proc := none } : CmdState).watermark = none := htr
    rw [reconcile_terminated_stable hd hp1 hdis1 hst1 htr1]
    exact ⟨rfl, rfl⟩

def sC9 : CmdState :=
  ⟨⟨["true"], ".", [], none, none, none, none⟩,
   CmdStatus.running 3 true, DisableState.enabled, 0,
   some ⟨1, ⟨["true"], ".", [], none⟩, 3, []⟩, 2⟩

/-- Witness for C9: the `true` command exits with code 5; the status
becomes Terminated(5) with the log line "cmd true exited with code 5",
and the next pass (no new triggers) keeps it Terminated with no
actions. -/
theorem cmd_exit_terminates_no_retry_witness :
    (handleExit 5 sC9).1.status = CmdStatus.terminated 5 "exited" ∧
    (handleExit 5 sC9).1.proc = none ∧
    Action.log ("cmd " ++ cmdLabel sC9.spec ++ " exited with code " ++
      toString (5 : Int)) ∈ (handleExit 5 sC9).2 ∧
    (∀ a ∈ (handleExit 5 sC9).2, isStart a = false) ∧
    (¬ (⟨[], [], some false, false⟩ : World).disable = some true →
      ¬ sC9.disableStatus = DisableState.disabled →
      newTrigger ⟨[], [], some false, false⟩ sC9.spec sC9.watermark =
        none →
      (reconcile ⟨[], [], some false, false⟩ 9
          (handleExit 5 sC9).1).1.status =
        CmdStatus.terminated 5 "exited" ∧
      (reconcile ⟨[], [], some false, false⟩ 9
          (handleExit 5 sC9).1).2 = []) :=
  cmd_exit_terminates_no_retry ⟨[], [], some false, false⟩ 9 3 true sC9
    ⟨1, ⟨["true"], ".", [], none⟩, 3, []⟩ 5 rfl rfl

end Cmd
